import Mathlib

/-!
Verification development for the oak `util.ts` core: the path resolver
(`resolvePath`), the reader-to-stream bridge (`readableStreamFromReader`),
and the byte-level helpers (`skipLWSPChar`, `stripEol`).

Machine byte values are modelled as `Nat`, buffers as `List Nat`, and
JavaScript strings as Lean `String` (lists of characters).
-/

set_option autoImplicit false

namespace Oak

/-! ### Path model

`util.ts` imports `isAbsolute`, `join`, `normalize` and `sep` from `deps.ts`
(the Deno std path module), which is not part of the source under study.
Those helpers are modelled from the spec below, for the POSIX separator.
-/

/-- Modelled from the spec: the host path separator (`sep` from `deps.ts`),
POSIX form. -/
def sep : String := "/"

/-- The NUL character (byte value 0) used by the malicious-path check. -/
def NUL : Char := Char.ofNat 0

/-- Splits a character list on `'/'`, keeping empty segments, like
`"a//b".split("/")`. -/
def segsOf : List Char → List (List Char)
  | [] => [[]]
  | c :: rest =>
    let r := segsOf rest
    if c = '/' then [] :: r
    else
      match r with
      | s :: ss => (c :: s) :: ss
      | [] => [[c]]

/-- One step of lexical `..`-collapsing over a reversed segment stack. -/
def stepSeg (isAbs : Bool) (acc : List (List Char)) (s : List Char) :
    List (List Char) :=
  if s = ['.', '.'] then
    match acc with
    | [] => if isAbs then [] else [s]
    | t :: restAcc => if t = ['.', '.'] then s :: t :: restAcc else restAcc
  else s :: acc

/-- Interleaves `'/'` between segments (inverse of splitting). -/
def joinSegs : List (List Char) → List Char
  | [] => []
  | [s] => s
  | s :: rest => s ++ '/' :: joinSegs rest

/-- Modelled from the spec: lexical normalization on character lists —
collapse `.`/`..` components and separator runs, preserving a trailing
separator, per the POSIX `normalize` of `deps.ts`. -/
def normalizeChars (cs : List Char) : List Char :=
  if cs = [] then ['.']
  else
    let isAbs : Bool := match cs with | '/' :: _ => true | _ => false
    let trailing : Bool := match cs.getLast? with | some '/' => true | _ => false
    let segs := (segsOf cs).filter (fun s => !(s == [] || s == ['.']))
    let core := joinSegs ((segs.foldl (stepSeg isAbs) []).reverse)
    let core := if core = [] ∧ isAbs = false then ['.'] else core
    let core := if core ≠ [] ∧ trailing = true then core ++ ['/'] else core
    if isAbs then '/' :: core else core

/-- Modelled from the spec: `normalize` from `deps.ts` (POSIX). -/
def normalize (s : String) : String := String.mk (normalizeChars s.data)

/-- Modelled from the spec: `isAbsolute` from `deps.ts` (POSIX) — a path is
absolute exactly when it starts with the separator. -/
def isAbsolute (p : String) : Bool :=
  match p.data with
  | [] => false
  | c :: _ => c == '/'

/-- Modelled from the spec: two-argument `join` from `deps.ts` (POSIX) —
concatenate the non-empty parts with a separator and normalize. -/
def join (a b : String) : String :=
  let joined :=
    if a.data ≠ [] then
      (if b.data ≠ [] then a.data ++ '/' :: b.data else a.data)
    else b.data
  if joined = [] then "." else String.mk (normalizeChars joined)

/-- Head match of `UP_PATH_REGEXP`: the list starts with `..` followed by a
separator (slash or backslash) or the end of the string. -/
def upHead : List Char → Bool
  | ['.', '.'] => true
  | '.' :: '.' :: c :: _ => c == '/' || c == '\\'
  | _ => false

/-- Scan for a match of `UP_PATH_REGEXP` positioned right after a separator
character. -/
def upScan : List Char → Bool
  | [] => false
  | c :: rest => ((c == '/' || c == '\\') && upHead rest) || upScan rest

/-- The test `UP_PATH_REGEXP.test(s)` for
`UP_PATH_REGEXP = /(?:^|[\\/])\.\.(?:[\\/]|$)/`: some `..` segment delimited
by start/end of string, slash, or backslash. -/
def upPathRegexpTest (s : String) : Bool := upHead s.data || upScan s.data

/-- Errors thrown by `resolvePath`: either a plain `TypeError` or an HTTP
error created by `createHttpError(status, message)`. `createHttpError` lives
in `httpError.ts` (not under study); per the spec it carries a numeric
status and a message, the message defaulting to the status text
(`"Forbidden"` for 403). -/
inductive PathError where
  | typeError
  | http (status : Nat) (msg : String)
  deriving DecidableEq

/-- `resolvePath` from `util.ts`.  `none` models a JavaScript `undefined`
argument: the one-argument call `resolvePath(p)` is `resolvePath (some p)
none`.  Returns the resolved path or the thrown error. -/
def resolvePath (rootPath relativePath : Option String) :
    Except PathError String :=
  let path := if relativePath.isNone then rootPath else relativePath
  let root := if relativePath.isNone then some "." else rootPath
  match path with
  | none => .error .typeError
  | some p =>
    if p.data.contains NUL then .error (.http 400 "Malicious Path")
    else if isAbsolute p then .error (.http 400 "Malicious Path")
    else if upPathRegexpTest (normalize ("." ++ sep ++ p)) then
      .error (.http 403 "Forbidden")
    else
      match root with
      | none => .error .typeError
      | some r => .ok (normalize (join r p))

/-- The claim-side reading of "begins with a parent-directory segment": the
string is `..` or starts with `../`. -/
def startsWithParentSeg (s : String) : Bool :=
  match s.data with
  | ['.', '.'] => true
  | '.' :: '.' :: '/' :: _ => true
  | _ => false

/-- Whether a `resolvePath` outcome is a success. -/
def resOk {ε α : Type} : Except ε α → Bool
  | .ok _ => true
  | .error _ => false

example : normalize "a/../../secret" = "../secret" := by decide
example : normalize "./a/../b//c/" = "b/c/" := by decide
example : normalize "" = "." := by decide
example : normalize "./" = "./" := by decide
example : resolvePath (some "root") (some "../x") =
    .error (.http 403 "Forbidden") := rfl
example : resolvePath (some "root") (some "a/./b") = .ok "root/a/b" := rfl
example : resolvePath (some "root") (some "") = .ok "root" := rfl
example : resolvePath (some "a/..") (some "") = .ok "." := rfl
example : resolvePath (some "root") (some "/etc") =
    .error (.http 400 "Malicious Path") := rfl
example : resolvePath none none = .error .typeError := rfl

/-! ### Reader-to-stream bridge model

`readableStreamFromReader` wraps a `Deno.Reader` in a WHATWG
`ReadableStream` whose `pull` algorithm performs one read per demand
signal.  The model below embeds its `pull` and `cancel` algorithms over an
explicit stream state (`readable`/`closed`/`errored`): controller
operations are no-ops once the stream has left the `readable` state, which
is how the WHATWG machinery behaves.  A reader is modelled by the sequence
of outcomes its successive `read` calls produce, a `closable` flag
(`isCloser`), and an optional error its `close` method throws. -/

/-- Outcome of one `reader.read(chunk)` call: the filled prefix of the
buffer (`read` bytes), the `null` end-of-data sentinel, or a thrown
error. -/
inductive ReadOutcome (ε : Type) where
  | chunk (data : List Nat)
  | eof
  | fail (e : ε)

/-- WHATWG stream state. -/
inductive StreamSt (ε : Type) where
  | readable
  | closed
  | errored (e : ε)

/-- Observable events of a bridge run: signals delivered to the stream
consumer (`enqueue`, `done`, `errored`) and calls of `reader.close()`
(`closeReader`). -/
inductive Ev (ε : Type) where
  | enqueue (data : List Nat)
  | done
  | errored (e : ε)
  | closeReader
  deriving DecidableEq

/-- A demand signal from the consumer: request a chunk, or cancel the
stream. -/
inductive Demand where
  | pull
  | cancel

/-- `controller.enqueue(chunk)`: delivers the chunk while the stream is
readable, otherwise does nothing that this model observes. -/
def ctrlEnqueue {ε : Type} : StreamSt ε → List Nat → List (Ev ε) × StreamSt ε
  | .readable, data => ([.enqueue data], .readable)
  | st, _ => ([], st)

/-- `controller.close()`: signals end-of-stream when readable. -/
def ctrlClose {ε : Type} : StreamSt ε → List (Ev ε) × StreamSt ε
  | .readable => ([.done], .closed)
  | st => ([], st)

/-- `controller.error(e)` (also used by the machinery when a pull promise
rejects): errors the stream when readable, and is a no-op on an already
closed or errored stream. -/
def ctrlError {ε : Type} : StreamSt ε → ε → List (Ev ε) × StreamSt ε
  | .readable, e => ([.errored e], .errored e)
  | st, _ => ([], st)

/-- One run of the `pull` algorithm of `readableStreamFromReader`, given
the outcome of the `reader.read` call it performs.  On `eof` with
`closable && autoClose` the reader is closed before `controller.close()`;
if that close throws, the pull promise rejects and the machinery errors
the stream.  On a read failure the error is signalled first, then the
reader is closed when closable regardless of `autoClose`; a throwing close
rejects the pull promise, which the machinery turns into a `ctrlError`
no-op on the already-errored stream. -/
def pullOnce {ε : Type} (closable autoClose : Bool) (closeErr : Option ε)
    (st : StreamSt ε) : ReadOutcome ε → List (Ev ε) × StreamSt ε
  | .chunk data => ctrlEnqueue st data
  | .eof =>
    if closable && autoClose then
      match closeErr with
      | some ce =>
        let p := ctrlError st ce
        (Ev.closeReader :: p.1, p.2)
      | none =>
        let p := ctrlClose st
        (Ev.closeReader :: p.1, p.2)
    else ctrlClose st
  | .fail e =>
    let p1 := ctrlError st e
    if closable then
      match closeErr with
      | some ce =>
        let p2 := ctrlError p1.2 ce
        (p1.1 ++ Ev.closeReader :: p2.1, p2.2)
      | none => (p1.1 ++ [Ev.closeReader], p1.2)
    else p1

/-- Drives the bridge through a finite list of demand signals: a `pull`
demand runs the pull algorithm on the next reader outcome (only while the
stream is readable — the machinery never pulls a closed or errored
stream), and a `cancel` demand runs the `cancel` algorithm, after which no
further demand is processed. -/
def drive {ε : Type} (closable autoClose : Bool) (closeErr : Option ε) :
    StreamSt ε → List Demand → List (ReadOutcome ε) → List (Ev ε)
  | _, [], _ => []
  | .readable, .cancel :: _, _ =>
    if closable && autoClose then [Ev.closeReader] else []
  | .readable, .pull :: _, [] => []
  | .readable, .pull :: ds, o :: rest =>
    let p := pullOnce closable autoClose closeErr .readable o
    p.1 ++ drive closable autoClose closeErr p.2 ds rest
  | .closed, _ :: _, _ => []
  | .errored _, _ :: _, _ => []

/-- The observable trace of a `readableStreamFromReader` bridge: the
stream starts readable and is driven by the consumer's demand signals over
the reader's read outcomes. -/
def readableStreamFromReader {ε : Type} (closable autoClose : Bool)
    (closeErr : Option ε) (demands : List Demand)
    (outs : List (ReadOutcome ε)) : List (Ev ε) :=
  drive closable autoClose closeErr .readable demands outs

example : readableStreamFromReader (ε := Nat) true true none
    [.pull, .pull, .pull] [.chunk [1], .chunk [2], .eof]
    = [.enqueue [1], .enqueue [2], .closeReader, .done] := rfl

example : readableStreamFromReader (ε := Nat) true false (some 9)
    [.pull, .pull] [.chunk [1], .fail 7]
    = [.enqueue [1], .errored 7, .closeReader] := rfl

/-! ### Byte-level helpers -/

/-- `HTAB = "\t".charCodeAt(0)`. -/
def HTAB : Nat := 9

/-- `SPACE = " ".charCodeAt(0)`. -/
def SPACE : Nat := 32

/-- `CR = "\r".charCodeAt(0)`. -/
def CR : Nat := 13

/-- `LF = "\n".charCodeAt(0)`. -/
def LF : Nat := 10

/-- `skipLWSPChar` from `util.ts` (spec name `stripLeadingBlanks`): copies
every byte that is not a space or horizontal tab into the result, in
order. -/
def skipLWSPChar : List Nat → List Nat
  | [] => []
  | b :: rest =>
    if b = SPACE ∨ b = HTAB then skipLWSPChar rest
    else b :: skipLWSPChar rest

/-- `stripEol` from `util.ts` (spec name `stripLineEnding`): drop one
trailing LF, together with a CR immediately before it. -/
def stripEol (value : List Nat) : List Nat :=
  if value.getLast? = some LF then
    if 1 < value.length ∧ value[value.length - 2]? = some CR then
      value.take (value.length - 2)
    else
      value.take (value.length - 1)
  else value

example : skipLWSPChar [32, 65, 9, 66, 32] = [65, 66] := by decide
example : stripEol [65, 13, 10] = [65] := by decide
example : stripEol [10, 13, 10] = [10] := by decide
example : stripEol [10] = [] := by decide
example : stripEol [65, 13] = [65, 13] := by decide

/-! ### Theorems -/

/-- C8: `skipLWSPChar` removes every space and horizontal-tab byte from the
whole buffer (a filter preserving the order of the other bytes); a buffer
with no space or tab bytes maps to itself, and an all-blank buffer maps
to the empty buffer. -/
theorem skipLWSPChar_strips_blanks (u8 : List Nat) :
    skipLWSPChar u8 = u8.filter (fun b => !(b == SPACE || b == HTAB))
    ∧ ((∀ b ∈ u8, b ≠ SPACE ∧ b ≠ HTAB) → skipLWSPChar u8 = u8)
    ∧ ((∀ b ∈ u8, b = SPACE ∨ b = HTAB) → skipLWSPChar u8 = []) := by
  have hfilter : skipLWSPChar u8
      = u8.filter (fun b => !(b == SPACE || b == HTAB)) := by
    induction u8 with
    | nil => rfl
    | cons b rest ih =>
      by_cases h : b = SPACE ∨ b = HTAB
      · rcases h with h | h <;> subst h <;>
          simp [skipLWSPChar, List.filter_cons, ih]
      · push_neg at h
        simp [skipLWSPChar, List.filter_cons, h.1, h.2, ih]
  refine ⟨hfilter, ?_, ?_⟩
  · intro h
    rw [hfilter, List.filter_eq_self]
    intro b hb
    simp [(h b hb).1, (h b hb).2]
  · intro h
    rw [hfilter, List.filter_eq_nil_iff]
    intro b hb
    rcases h b hb with hb2 | hb2 <;> simp [hb2]

/-- Witness for C8 at concrete buffers: a mixed buffer, a blank-free buffer
and an all-blank buffer. -/
theorem skipLWSPChar_strips_blanks_w :
    skipLWSPChar [65, 32, 9, 66] = [65, 66]
    ∧ skipLWSPChar [65, 66] = [65, 66]
    ∧ skipLWSPChar [32, 9] = [] :=
  ⟨by rw [(skipLWSPChar_strips_blanks [65, 32, 9, 66]).1]; decide,
   (skipLWSPChar_strips_blanks [65, 66]).2.1 (by decide),
   (skipLWSPChar_strips_blanks [32, 9]).2.2 (by decide)⟩

/-- C9 (counterexample): on the buffer `[LF, CR, LF]`, which ends in the two
bytes CR then LF, the first application of `stripEol` removes the trailing
CR LF leaving `[LF]`, but the second application strips again and returns
`[]`, so `stripEol` is not a no-op on the second application. -/
theorem stripEol_not_idempotent :
    stripEol [10, 13, 10] = [10]
    ∧ stripEol (stripEol [10, 13, 10]) = []
    ∧ ([] : List Nat) ≠ [10] :=
  ⟨by decide, by decide, by decide⟩

/-- C9 (amended): for every buffer ending in CR then LF, one application of
`stripEol` removes exactly those two trailing bytes and leaves the interior
untouched; the second application returns its input unchanged provided the
remaining prefix does not itself end in a line-feed byte. -/
theorem stripEol_crlf (xs : List Nat) :
    stripEol (xs ++ [CR, LF]) = xs
    ∧ (xs.getLast? ≠ some LF → stripEol xs = xs) := by
  constructor
  · have hlast : (xs ++ [CR, LF]).getLast? = some LF := by
      rw [show xs ++ [CR, LF] = (xs ++ [CR]) ++ [LF] by simp]
      exact List.getLast?_concat _
    have hlen : (xs ++ [CR, LF]).length = xs.length + 2 := by simp
    have hget : (xs ++ [CR, LF])[(xs ++ [CR, LF]).length - 2]? = some CR := by
      rw [hlen, show xs.length + 2 - 2 = xs.length from by omega,
        List.getElem?_append_right (Nat.le_refl _)]
      simp
    unfold stripEol
    rw [if_pos hlast, if_pos ⟨by rw [hlen]; omega, hget⟩, hlen]
    exact List.take_left' (by omega)
  · intro h
    unfold stripEol
    rw [if_neg h]

/-- Witness for C9 (amended) at the concrete buffer `[65, 13, 10]`. -/
theorem stripEol_crlf_w : stripEol [65, 13, 10] = [65]
    ∧ stripEol [65] = [65] :=
  ⟨(stripEol_crlf [65]).1, (stripEol_crlf [65]).2 (by decide)⟩

/-- A closed stream is never pulled again: driving it produces nothing. -/
theorem drive_closed {ε : Type} (closable autoClose : Bool)
    (closeErr : Option ε) (ds : List Demand) (outs : List (ReadOutcome ε)) :
    drive closable autoClose closeErr .closed ds outs = [] := by
  cases ds <;> rfl

/-- An errored stream is never pulled again: driving it produces nothing. -/
theorem drive_errored {ε : Type} (closable autoClose : Bool)
    (closeErr : Option ε) (e : ε) (ds : List Demand)
    (outs : List (ReadOutcome ε)) :
    drive closable autoClose closeErr (.errored e) ds outs = [] := by
  cases ds <;> rfl

/-- C4: when the second read fails, the bridge enqueues the first chunk,
then signals the original error unmodified, then makes exactly one close
attempt on a closable reader — whatever the `autoClose` setting and
whether or not the reader's `close` itself throws (`closeErr`) — and a
non-closable reader is never closed; no events follow. -/
theorem readFailure_events {ε : Type} (b1 : List Nat) (e : ε)
    (autoClose : Bool) (closeErr : Option ε) (ds : List Demand)
    (rest : List (ReadOutcome ε)) :
    readableStreamFromReader true autoClose closeErr
        (Demand.pull :: Demand.pull :: ds)
        (ReadOutcome.chunk b1 :: ReadOutcome.fail e :: rest)
      = [Ev.enqueue b1, Ev.errored e, Ev.closeReader]
    ∧ readableStreamFromReader false autoClose closeErr
        (Demand.pull :: Demand.pull :: ds)
        (ReadOutcome.chunk b1 :: ReadOutcome.fail e :: rest)
      = [Ev.enqueue b1, Ev.errored e] := by
  cases closeErr <;>
    simp [readableStreamFromReader, drive, pullOnce, ctrlEnqueue, ctrlError,
      drive_errored]

/-- C5: over a closable reader with `autoClose` on, a source yielding
`b1`, `b2` then end-of-data produces exactly the enqueues of `b1` and `b2`
in order, one close call on the reader, and one end-of-stream signal; no
further pulls occur afterwards, however much demand remains. -/
theorem twoChunksEof_events {ε : Type} (b1 b2 : List Nat) (ds : List Demand)
    (rest : List (ReadOutcome ε)) :
    readableStreamFromReader true true none
        (Demand.pull :: Demand.pull :: Demand.pull :: ds)
        (ReadOutcome.chunk b1 :: ReadOutcome.chunk b2 :: ReadOutcome.eof
          :: rest)
      = [Ev.enqueue b1, Ev.enqueue b2, Ev.closeReader, Ev.done] := by
  simp [readableStreamFromReader, drive, pullOnce, ctrlEnqueue, ctrlClose,
    drive_closed]

/-- C6: a zero-byte read produces exactly one empty enqueue and the bridge
carries on in the readable state with the remaining demand: it is not
treated as end-of-data, closes nothing and errors nothing. -/
theorem zeroRead_enqueues_empty {ε : Type} (closable autoClose : Bool)
    (closeErr : Option ε) (ds : List Demand) (rest : List (ReadOutcome ε)) :
    readableStreamFromReader closable autoClose closeErr
        (Demand.pull :: ds) (ReadOutcome.chunk [] :: rest)
      = Ev.enqueue []
          :: readableStreamFromReader closable autoClose closeErr ds rest := by
  simp [readableStreamFromReader, drive, pullOnce, ctrlEnqueue]

/-- C7: cancelling a bridge over a closable reader with `autoClose` on
before any pull completes yields exactly one close call on the reader and
no enqueue, end or error signal at all. -/
theorem cancelFirst_events {ε : Type} (closeErr : Option ε)
    (ds : List Demand) (outs : List (ReadOutcome ε)) :
    readableStreamFromReader true true closeErr (Demand.cancel :: ds) outs
      = [Ev.closeReader] := by
  simp [readableStreamFromReader, drive]

/-- A string that begins with a parent-directory segment matches the head
case of `UP_PATH_REGEXP`. -/
theorem upHead_of_parentSeg (s : String)
    (h : startsWithParentSeg s = true) : upHead s.data = true := by
  unfold startsWithParentSeg at h
  split at h
  · next heq => rw [heq]; rfl
  · next c heq => rw [heq]; rfl
  · exact absurd h (by simp)

/-- C1: for every root, and every relative path that passes the NUL and
absoluteness checks, if the lexical normalization of `"." + sep + path`
begins with a parent-directory segment then `resolvePath` throws the
403-class error: the traversal check runs on the normalized form, not on
the raw input. -/
theorem resolvePath_traversal_forbidden (root p : String)
    (h1 : p.data.contains NUL = false) (h2 : isAbsolute p = false)
    (h3 : startsWithParentSeg (normalize ("." ++ sep ++ p)) = true) :
    resolvePath (some root) (some p) = .error (.http 403 "Forbidden") := by
  have hup : upPathRegexpTest (normalize ("." ++ sep ++ p)) = true := by
    unfold upPathRegexpTest
    rw [upHead_of_parentSeg _ h3]
    rfl
  have hm : ¬ NUL ∈ p.data := by simpa using h1
  simp [resolvePath, hm, h2, hup]

/-- Witness for C1 at `root := "root"`, `p := "a/../../secret"`: the raw
path does not begin with `..`, its normalized form `"../secret"` does, and
`resolvePath` rejects it with the 403-class error. -/
theorem resolvePath_traversal_forbidden_w :
    ("a/../../secret".data.contains NUL = false)
    ∧ (isAbsolute "a/../../secret" = false)
    ∧ (startsWithParentSeg "a/../../secret" = false)
    ∧ (startsWithParentSeg (normalize ("." ++ sep ++ "a/../../secret"))
        = true)
    ∧ resolvePath (some "root") (some "a/../../secret")
        = .error (.http 403 "Forbidden") :=
  ⟨by decide, by decide, by decide, by decide,
    resolvePath_traversal_forbidden "root" "a/../../secret" (by decide)
      (by decide) (by decide)⟩

/-- C2 (counterexample): for the absolute relative path `"/etc"` the code
throws the 400-class error with message `"Malicious Path"`, not
`"Malformed Path"` as claimed; and for a missing relative path it throws a
plain `TypeError`, not a 400-class error. -/
theorem resolvePath_message_cex :
    resolvePath (some "root") (some "/etc")
        = .error (.http 400 "Malicious Path")
    ∧ ("Malicious Path" : String) ≠ "Malformed Path"
    ∧ resolvePath none none = .error .typeError
    ∧ PathError.typeError ≠ .http 400 "Malformed Path" :=
  ⟨rfl, by decide, rfl, by decide⟩

/-- C2 (amended): for every root, `resolvePath` throws the 400-class error
with message `"Malicious Path"` exactly when the relative path contains a
NUL byte or is absolute in host path syntax, and a missing relative path
throws a `TypeError` instead; all of this is decided synchronously by the
path checks alone. -/
theorem resolvePath_malicious_iff (root p : String) :
    (resolvePath (some root) (some p)
        = .error (.http 400 "Malicious Path")
      ↔ (p.data.contains NUL = true ∨ isAbsolute p = true))
    ∧ resolvePath none none = .error .typeError := by
  constructor
  · by_cases h1 : NUL ∈ p.data
    · simp [resolvePath, h1]
    · by_cases h2 : isAbsolute p = true
      · simp [resolvePath, h1, h2]
      · cases h3 : upPathRegexpTest (normalize ("." ++ sep ++ p)) <;>
          simp [resolvePath, h1, h2, h3]
  · rfl

/-- C3 (counterexample): with root `"a/.."` the empty relative path is
accepted but resolves to `"."`, the normalization of the joined path, not
to the root string itself. -/
theorem resolvePath_empty_root_cex :
    resolvePath (some "a/..") (some "") = .ok "."
    ∧ ("." : String) ≠ "a/.." :=
  ⟨rfl, by decide⟩

/-- C3 (amended): for every relative path that passes the NUL,
absoluteness and traversal checks, `resolvePath` returns the lexical
normalization of the join of the original root and the path; the empty
relative path is never rejected and resolves to the normalized join with
the root — which is the root itself whenever the root is already in
normalized form. -/
theorem resolvePath_normalized_join (root p : String) :
    (p.data.contains NUL = false → isAbsolute p = false →
      upPathRegexpTest (normalize ("." ++ sep ++ p)) = false →
      resolvePath (some root) (some p) = .ok (normalize (join root p)))
    ∧ resolvePath (some root) (some "") = .ok (normalize (join root ""))
    ∧ (normalize root = root →
        resolvePath (some root) (some "") = .ok root) := by
  have main : ∀ q : String, q.data.contains NUL = false →
      isAbsolute q = false →
      upPathRegexpTest (normalize ("." ++ sep ++ q)) = false →
      resolvePath (some root) (some q) = .ok (normalize (join root q)) := by
    intro q h1 h2 h3
    have hm : ¬ NUL ∈ q.data := by simpa using h1
    simp [resolvePath, hm, h2, h3]
  refine ⟨main p, main "" (by decide) (by decide) (by decide), ?_⟩
  intro hroot
  have hne : root.data ≠ [] := by
    intro h0
    have h4 : normalize root = "." := by
      unfold normalize
      rw [h0]
      rfl
    rw [hroot] at h4
    rw [h4] at h0
    exact absurd h0 (by decide)
  have hj : join root "" = root := by
    unfold join
    rw [show ("" : String).data = [] from rfl]
    simp [hne]
    exact hroot
  rw [main "" (by decide) (by decide) (by decide), hj, hroot]

/-- Witness for C3 (amended) at `root := "root"` with `p := "a/./b"` and
with the empty relative path. -/
theorem resolvePath_normalized_join_w :
    resolvePath (some "root") (some "a/./b")
        = .ok (normalize (join "root" "a/./b"))
    ∧ resolvePath (some "root") (some "") = .ok "root" :=
  ⟨(resolvePath_normalized_join "root" "a/./b").1 (by decide) (by decide)
      (by decide),
   (resolvePath_normalized_join "root" "a/./b").2.2 (by decide)⟩

/-- C10: the NUL, absoluteness and traversal checks look only at the
relative path, never at the root: success of `resolvePath` does not depend
on the root at all, and on success the returned value incorporates the
given root as the normalization of the join of root and path. -/
theorem resolvePath_ignores_root (root p : String) :
    (resOk (resolvePath (some root) (some p))
      = resOk (resolvePath (some ".") (some p)))
    ∧ (∀ v, resolvePath (some root) (some p) = .ok v →
        v = normalize (join root p)) := by
  constructor
  · by_cases h1 : NUL ∈ p.data
    · simp [resolvePath, h1, resOk]
    · by_cases h2 : isAbsolute p = true
      · simp [resolvePath, h1, h2, resOk]
      · cases h3 : upPathRegexpTest (normalize ("." ++ sep ++ p)) <;>
          simp [resolvePath, h1, h2, h3, resOk]
  · intro v hv
    by_cases h1 : NUL ∈ p.data
    · simp [resolvePath, h1] at hv
    · by_cases h2 : isAbsolute p = true
      · simp [resolvePath, h1, h2] at hv
      · cases h3 : upPathRegexpTest (normalize ("." ++ sep ++ p)) with
        | true => simp [resolvePath, h1, h2, h3] at hv
        | false =>
          simp [resolvePath, h1, h2, h3] at hv
          exact hv.symm

/-- Witness for C10 at a root containing a NUL byte, a `..` segment and an
absolute prefix: resolution still succeeds and the root flows into the
result through the final normalization. -/
theorem resolvePath_ignores_root_w :
    (resOk (resolvePath (some "/a\x00/../x") (some "ok"))
      = resOk (resolvePath (some ".") (some "ok")))
    ∧ ("/x/ok" : String) = normalize (join "/a\x00/../x" "ok") :=
  ⟨(resolvePath_ignores_root "/a\x00/../x" "ok").1,
   (resolvePath_ignores_root "/a\x00/../x" "ok").2 "/x/ok" rfl⟩

end Oak
